import Mathlib

/-!
# Verification of `google_carousel_parser.py`

A shallow embedding of the Google artworks-carousel parser
(`GoogleCarouselParser` in `src/google_carousel_parser.py`).

Strings are modelled as `List Char`.  The HTML document tree produced by
the external BeautifulSoup library is modelled by the inductive `HNode`;
`parse_html` takes the parsed tree (the soup's top-level nodes in document
order) together with the raw HTML text, exactly the two views the Python
code works with.  Regex scans over the raw text (`re.finditer`,
`re.search`) are embedded as explicit left-to-right scanners implementing
the concrete patterns of the source.  Character classes `\s` and `\d` are
modelled over their ASCII members, and case-insensitive matching uses
ASCII lowercasing.
-/

namespace Carousel

abbrev Str := List Char

/-- The whitespace set of Python's `str.strip()`. -/
def pySpace (c : Char) : Bool :=
  c = ' ' || c = '\t' || c = '\n' || c = '\r' || c = Char.ofNat 11 || c = Char.ofNat 12

/-- Python `str.strip()`. -/
def pyStrip (s : Str) : Str :=
  ((s.dropWhile pySpace).reverse.dropWhile pySpace).reverse

/-- ASCII lowercasing, modelling the effect of `re.IGNORECASE`. -/
def lowCh (c : Char) : Char := c.toLower

/-- Python `x or y` on an optional string and a string:
`None` and the empty string are falsy. -/
def pyOr (x : Option Str) (y : Str) : Str :=
  match x with
  | none => y
  | some s => if s = [] then y else s

/-- The class constant `GOOGLE_ORIGIN = "https://www.google.com"`. -/
def GOOGLE_ORIGIN : Str := "https://www.google.com".toList

/-- `is_valid_data_url`: a thumbnail candidate must start with
`data:image/`, must not carry the 1x1 transparent GIF placeholder
prefix, and must be longer than 500 characters. -/
def is_valid_data_url (url : Str) : Bool :=
  if ¬ ("data:image/".toList.isPrefixOf url) then false
  else if "data:image/gif;base64,R0lGODlhAQABA".toList.isPrefixOf url then false
  else decide (500 < url.length)

/-! ## The HTML document tree

Model of the navigable tree BeautifulSoup hands to the parser: element
nodes with a tag name, an attribute list and children, and text nodes. -/

mutual
inductive HNode where
  | text (s : Str)
  | elem (tag : Str) (attrs : List (Str × Str)) (children : HForest)
inductive HForest where
  | nil
  | cons (n : HNode) (f : HForest)
end

/-- Build a forest from a list of nodes. -/
def hf (l : List HNode) : HForest :=
  match l with
  | [] => .nil
  | n :: ns => .cons n (hf ns)

/-- Python substring containment (`needle in hay`), used for the
`*=` (attribute-value-contains) CSS selectors. -/
def containsSub (needle : Str) : Str → Bool
  | [] => decide (needle = [])
  | c :: rest => needle.isPrefixOf (c :: rest) || containsSub needle rest

/-- `node.get(key)`: first attribute with the given name. -/
def getAttr (attrs : List (Str × Str)) (key : Str) : Option Str :=
  match attrs with
  | [] => none
  | (k, v) :: rest => if k = key then some v else getAttr rest key

def HNode.attr (n : HNode) (key : Str) : Option Str :=
  match n with
  | .text _ => none
  | .elem _ attrs _ => getAttr attrs key

mutual
/-- All descendant nodes of a node, in document (preorder) order —
BeautifulSoup's `descendants`, which excludes the node itself. -/
def HNode.descendants : HNode → List HNode
  | .text _ => []
  | .elem _ _ cs => descForest cs
/-- Preorder node list of a forest (each root included). -/
def descForest : HForest → List HNode
  | .nil => []
  | .cons n ns => n :: (HNode.descendants n ++ descForest ns)
end

mutual
/-- First node satisfying `p` in a subtree, the root included, in
preorder — BeautifulSoup's `select_one` / `find` search order. -/
def selectNode (p : HNode → Bool) (n : HNode) : Option HNode :=
  if p n then some n
  else
    match n with
    | .text _ => none
    | .elem _ _ cs => selectForest p cs
/-- First node satisfying `p` in a forest, in preorder. -/
def selectForest (p : HNode → Bool) (f : HForest) : Option HNode :=
  match f with
  | .nil => none
  | .cons n ns =>
    match selectNode p n with
    | some r => some r
    | none => selectForest p ns
end

/-- First node satisfying `p` over the document's top-level nodes. -/
def selectList (p : HNode → Bool) (l : List HNode) : Option HNode :=
  match l with
  | [] => none
  | n :: ns =>
    match selectNode p n with
    | some r => some r
    | none => selectList p ns

mutual
/-- The text strings of a subtree after stripping, whitespace-only
strings dropped — BeautifulSoup's `stripped_strings`. -/
def HNode.strippedStrings : HNode → List Str
  | .text s => if pyStrip s = [] then [] else [pyStrip s]
  | .elem _ _ cs => strippedForest cs
/-- `stripped_strings` over a forest. -/
def strippedForest : HForest → List Str
  | .nil => []
  | .cons n ns => HNode.strippedStrings n ++ strippedForest ns
end

/-- `get_text(" ", strip=True)`. -/
def getTextSp (n : HNode) : Str :=
  List.intercalate " ".toList n.strippedStrings

/-- `get_text(strip=True)` (empty separator). -/
def getTextNoSep (n : HNode) : Str :=
  List.intercalate [] n.strippedStrings

/-! ## Container locator

The six CSS signatures of `parse_html`, tried in the fixed source
order through the `or` chain. -/

/-- `div[data-attrid*=':works']`. -/
def sigWorksDiv (n : HNode) : Bool :=
  match n with
  | .elem tag attrs _ =>
    tag = "div".toList &&
      (match getAttr attrs "data-attrid".toList with
       | some v => containsSub ":works".toList v
       | none => false)
  | .text _ => false

/-- `div[data-attrid*='visual_artist:works']`. -/
def sigVisualArtistWorksDiv (n : HNode) : Bool :=
  match n with
  | .elem tag attrs _ =>
    tag = "div".toList &&
      (match getAttr attrs "data-attrid".toList with
       | some v => containsSub "visual_artist:works".toList v
       | none => false)
  | .text _ => false

/-- `div[data-attrid*='artworks']`. -/
def sigArtworksDiv (n : HNode) : Bool :=
  match n with
  | .elem tag attrs _ =>
    tag = "div".toList &&
      (match getAttr attrs "data-attrid".toList with
       | some v => containsSub "artworks".toList v
       | none => false)
  | .text _ => false

/-- `g-scrolling-carousel`. -/
def sigScrollingCarousel (n : HNode) : Bool :=
  match n with
  | .elem tag _ _ => tag = "g-scrolling-carousel".toList
  | .text _ => false

/-- `div[jscontroller='HPVvwb']`. -/
def sigJscontrollerDiv (n : HNode) : Bool :=
  match n with
  | .elem tag attrs _ =>
    tag = "div".toList && (getAttr attrs "jscontroller".toList = some "HPVvwb".toList)
  | .text _ => false

/-- `div[jsname='GZq3Ke']`. -/
def sigJsnameDiv (n : HNode) : Bool :=
  match n with
  | .elem tag attrs _ =>
    tag = "div".toList && (getAttr attrs "jsname".toList = some "GZq3Ke".toList)
  | .text _ => false

/-- The fixed priority order of the `or` chain in `parse_html`. -/
def containerSignatures : List (HNode → Bool) :=
  [sigWorksDiv, sigVisualArtistWorksDiv, sigArtworksDiv,
   sigScrollingCarousel, sigJscontrollerDiv, sigJsnameDiv]

/-- First signature (in priority order) with a match decides the
container. -/
def firstMatch (sigs : List (HNode → Bool)) (doc : List HNode) : Option HNode :=
  match sigs with
  | [] => none
  | p :: ps =>
    match selectList p doc with
    | some n => some n
    | none => firstMatch ps doc

def locateContainer (doc : List HNode) : Option HNode :=
  firstMatch containerSignatures doc

/-- An anchor with an `href` attribute — the `find_all("a", href=True)`
filter of `parse_html`. -/
def isAnchorWithHref (n : HNode) : Bool :=
  match n with
  | .elem tag attrs _ => tag = "a".toList && (getAttr attrs "href".toList).isSome
  | .text _ => false

def anchorsWithHref (container : HNode) : List HNode :=
  container.descendants.filter isAnchorWithHref

/-- `node.find("img")`: first `img` descendant. -/
def isImg (n : HNode) : Bool :=
  match n with
  | .elem tag _ _ => tag = "img".toList
  | .text _ => false

def findImg (n : HNode) : Option HNode :=
  match n with
  | .text _ => none
  | .elem _ _ cs => selectForest isImg cs

/-! ## Raw-text scanners

Embeddings of the `re` scans over the raw HTML text.  Each models the
concrete pattern of the source: leftmost match, greedy repetition, and
(for `finditer`) non-overlapping continuation after each match. -/

/-- A base64 character, the class `[A-Za-z0-9+/=]`. -/
def isB64 (c : Char) : Bool :=
  ('A' ≤ c && c ≤ 'Z') || ('a' ≤ c && c ≤ 'z') || ('0' ≤ c && c ≤ '9') ||
    c = '+' || c = '/' || c = '='

/-- Strip an exact literal token from the front. -/
def stripTok (tok s : Str) : Option Str :=
  if tok.isPrefixOf s then some (s.drop tok.length) else none

/-- Case-insensitive (ASCII) prefix test. -/
def ciIsPre : Str → Str → Bool
  | [], _ => true
  | _ :: _, [] => false
  | p :: ps, c :: cs => lowCh p = lowCh c && ciIsPre ps cs

/-- Strip a literal token case-insensitively from the front. -/
def stripTokCI (tok s : Str) : Option Str :=
  if ciIsPre tok s then some (s.drop tok.length) else none

/-- The format alternation `(?:jpeg|jpg|png|webp)` at the start of `s1`. -/
def extOf (s1 : Str) : Option Str :=
  if "jpeg".toList.isPrefixOf s1 then some "jpeg".toList
  else if "jpg".toList.isPrefixOf s1 then some "jpg".toList
  else if "png".toList.isPrefixOf s1 then some "png".toList
  else if "webp".toList.isPrefixOf s1 then some "webp".toList
  else none

/-- Match `data:image/(?:jpeg|jpg|png|webp);base64,[A-Za-z0-9+/=]+` at the
start of `s`; returns the (greedy-maximal) matched string. -/
def matchDataUrlAt (s : Str) : Option Str :=
  match stripTok "data:image/".toList s with
  | none => none
  | some s1 =>
    match extOf s1 with
    | none => none
    | some ext =>
      match stripTok ";base64,".toList (s1.drop ext.length) with
      | none => none
      | some s3 =>
        let run := s3.takeWhile isB64
        if run = [] then none
        else some ("data:image/".toList ++ ext ++ ";base64,".toList ++ run)

/-- `re.finditer` scan for the data-URI pattern: try each start offset
left to right, and after a match continue past its end. -/
def dataUrlScan : Nat → Nat → Str → List (Nat × Str)
  | 0, _, _ => []
  | _ + 1, _, [] => []
  | fuel + 1, pos, c :: rest =>
    match matchDataUrlAt (c :: rest) with
    | some m => (pos, m) :: dataUrlScan fuel (pos + m.length) ((c :: rest).drop m.length)
    | none => dataUrlScan fuel (pos + 1) rest

/-- All data-URI pattern matches in `html` with their start offsets. -/
def dataUrlMatches (html : Str) : List (Nat × Str) :=
  dataUrlScan html.length 0 html

/-- The matches that pass `is_valid_data_url` — the `data_urls` list of
`find_closest_data_image`. -/
def validDataUrls (html : Str) : List (Nat × Str) :=
  (dataUrlMatches html).filter (fun x => is_valid_data_url x.2)

/-- `re.finditer(re.escape(title), html, re.IGNORECASE)` start offsets:
case-insensitive literal occurrences, non-overlapping. -/
def titleScan (title : Str) : Nat → Nat → Str → List Nat
  | 0, _, _ => []
  | _ + 1, _, [] => []
  | fuel + 1, pos, c :: rest =>
    if ciIsPre title (c :: rest) then
      pos :: titleScan title fuel (pos + title.length) ((c :: rest).drop title.length)
    else
      titleScan title fuel (pos + 1) rest

def titlePositions (html title : Str) : List Nat :=
  titleScan title html.length 0 html

/-- Python `min(xs, key=lambda x: abs(x[0] - anchorPos))`: left-to-right
fold that replaces the current best only on a strictly smaller key, so
the first minimum wins. -/
def minByDist (anchorPos : Nat) (best : Nat × Str) : List (Nat × Str) → Nat × Str
  | [] => best
  | x :: xs =>
    if Nat.dist x.1 anchorPos < Nat.dist best.1 anchorPos then
      minByDist anchorPos x xs
    else
      minByDist anchorPos best xs

/-- `find_closest_data_image`: among all valid data-URI matches, the one
whose start offset is closest to the first case-insensitive occurrence
of the title; `None` when the title is empty, does not occur, or no
valid data-URI exists. -/
def find_closest_data_image (html title : Str) : Option Str :=
  if title = [] then none
  else
    match titlePositions html title with
    | [] => none
    | anchorPos :: _ =>
      match validDataUrls html with
      | [] => none
      | d :: ds => some (minByDist anchorPos d ds).2

/-! ## Tier-2: script-embedded thumbnail -/

/-- Python regex `\s` over its ASCII members. -/
def isReSpace (c : Char) : Bool :=
  c = ' ' || c = '\t' || c = '\n' || c = '\r' || c = Char.ofNat 11 || c = Char.ofNat 12

/-- Match the pattern
`var\s*s\s*=\s*'(?P<data>data:image/[^']+)';\s*var\s*i+i\s*=\s*\['<id>'\];`
(compiled with `re.IGNORECASE`) at the start of `s`, returning the text
captured by the `data` group (in its original case). -/
def matchScriptAt (imgId : Str) (s : Str) : Option Str := do
  let s1 ← stripTokCI "var".toList s
  let s2 := s1.dropWhile isReSpace
  let s3 ← stripTokCI "s".toList s2
  let s4 := s3.dropWhile isReSpace
  let s5 ← stripTok "=".toList s4
  let s6 := s5.dropWhile isReSpace
  let s7 ← stripTok "'".toList s6
  let pre := s7.take "data:image/".toList.length
  let s8 ← stripTokCI "data:image/".toList s7
  let body := s8.takeWhile (fun c => c ≠ '\'')
  if body = [] then none
  else do
    let s9 ← stripTok "';".toList (s8.drop body.length)
    let s10 := s9.dropWhile isReSpace
    let s11 ← stripTokCI "var".toList s10
    let s12 := s11.dropWhile isReSpace
    let irun := s12.takeWhile (fun c => lowCh c = 'i')
    if irun.length < 2 then none
    else do
      let s13 := s12.drop irun.length
      let s14 := s13.dropWhile isReSpace
      let s15 ← stripTok "=".toList s14
      let s16 := s15.dropWhile isReSpace
      let s17 ← stripTok "['".toList s16
      let s18 ← stripTokCI imgId s17
      let _ ← stripTok "'];".toList s18
      pure (pre ++ body)

/-- `re.search` for the script pattern: leftmost start offset wins. -/
def scriptScan (imgId : Str) : Nat → Str → Option Str
  | 0, _ => none
  | _ + 1, [] => none
  | fuel + 1, c :: rest =>
    match matchScriptAt imgId (c :: rest) with
    | some d => some d
    | none => scriptScan imgId fuel rest

def scriptSearch (html imgId : Str) : Option Str :=
  scriptScan imgId html.length html

/-- Hexadecimal digit value. -/
def hexVal (c : Char) : Option Nat :=
  let n := c.toNat
  if 48 ≤ n && n ≤ 57 then some (n - 48)
  else if 97 ≤ n && n ≤ 102 then some (n - 87)
  else if 65 ≤ n && n ≤ 70 then some (n - 55)
  else none

def isOctCh (c : Char) : Bool := '0' ≤ c && c ≤ '7'

def octVal (c : Char) : Nat := c.toNat - '0'.toNat

def hex2 (h1 h2 : Char) : Option Nat := do
  let a ← hexVal h1
  let b ← hexVal h2
  pure (16 * a + b)

def hex4 (h1 h2 h3 h4 : Char) : Option Nat := do
  let a ← hex2 h1 h2
  let b ← hex2 h3 h4
  pure (256 * a + b)

/-- Code point to character, failing on values that are not Unicode
scalar values. -/
def mkChar (n : Nat) : Option Char :=
  if h : n.isValidChar then some (Char.ofNatAux n h) else none

/-- One pass of Python's `unicode_escape` decoding
(`bytes(s, "ascii").decode("unicode_escape")`): fails (`none`, modelling
the raised exception) on non-ASCII input, a trailing backslash, a
malformed `\x`/`\u`/`\U` escape, a `\N` escape, or a resulting code
point outside the scalar range; an unrecognized escape keeps the
backslash and the character, exactly as the codec does. -/
def unicodeEscapeCore : Str → Option Str
  | [] => some []
  | ['\\'] => none
  | '\\' :: c :: rest =>
    if c = '\n' then unicodeEscapeCore rest
    else if c = '\\' then (fun t => '\\' :: t) <$> unicodeEscapeCore rest
    else if c = '\'' then (fun t => '\'' :: t) <$> unicodeEscapeCore rest
    else if c = '"' then (fun t => '"' :: t) <$> unicodeEscapeCore rest
    else if c = 'a' then (fun t => Char.ofNat 7 :: t) <$> unicodeEscapeCore rest
    else if c = 'b' then (fun t => Char.ofNat 8 :: t) <$> unicodeEscapeCore rest
    else if c = 'f' then (fun t => Char.ofNat 12 :: t) <$> unicodeEscapeCore rest
    else if c = 'n' then (fun t => '\n' :: t) <$> unicodeEscapeCore rest
    else if c = 'r' then (fun t => '\r' :: t) <$> unicodeEscapeCore rest
    else if c = 't' then (fun t => '\t' :: t) <$> unicodeEscapeCore rest
    else if c = 'v' then (fun t => Char.ofNat 11 :: t) <$> unicodeEscapeCore rest
    else if isOctCh c then
      match rest with
      | d2 :: d3 :: r2 =>
        if isOctCh d2 && isOctCh d3 then
          match mkChar (64 * octVal c + 8 * octVal d2 + octVal d3) with
          | some ch => (fun t => ch :: t) <$> unicodeEscapeCore r2
          | none => none
        else if isOctCh d2 then
          match mkChar (8 * octVal c + octVal d2) with
          | some ch => (fun t => ch :: t) <$> unicodeEscapeCore (d3 :: r2)
          | none => none
        else
          match mkChar (octVal c) with
          | some ch => (fun t => ch :: t) <$> unicodeEscapeCore (d2 :: d3 :: r2)
          | none => none
      | [d2] =>
        if isOctCh d2 then
          match mkChar (8 * octVal c + octVal d2) with
          | some ch => (fun t => ch :: t) <$> unicodeEscapeCore []
          | none => none
        else
          match mkChar (octVal c) with
          | some ch => (fun t => ch :: t) <$> unicodeEscapeCore [d2]
          | none => none
      | [] =>
        match mkChar (octVal c) with
        | some ch => (fun t => ch :: t) <$> unicodeEscapeCore []
        | none => none
    else if c = 'x' then
      match rest with
      | h1 :: h2 :: r2 =>
        match hex2 h1 h2 with
        | some v =>
          match mkChar v with
          | some ch => (fun t => ch :: t) <$> unicodeEscapeCore r2
          | none => none
        | none => none
      | _ => none
    else if c = 'u' then
      match rest with
      | h1 :: h2 :: h3 :: h4 :: r2 =>
        match hex4 h1 h2 h3 h4 with
        | some v =>
          match mkChar v with
          | some ch => (fun t => ch :: t) <$> unicodeEscapeCore r2
          | none => none
        | none => none
      | _ => none
    else if c = 'U' then
      match rest with
      | h1 :: h2 :: h3 :: h4 :: h5 :: h6 :: h7 :: h8 :: r2 =>
        match hex4 h1 h2 h3 h4, hex4 h5 h6 h7 h8 with
        | some v1, some v2 =>
          match mkChar (65536 * v1 + v2) with
          | some ch => (fun t => ch :: t) <$> unicodeEscapeCore r2
          | none => none
        | _, _ => none
      | _ => none
    else if c = 'N' then none
    else (fun t => '\\' :: c :: t) <$> unicodeEscapeCore rest
  | c :: rest => (fun t => c :: t) <$> unicodeEscapeCore rest

/-- `bytes(s, "ascii").decode("unicode_escape")` as a fallible function. -/
def pyUnicodeEscape (s : Str) : Option Str :=
  if s.all (fun c => c.toNat ≤ 127) then unicodeEscapeCore s else none

/-- `decode_thumbnail_from_script`: search for the script pattern; on a
match, unescape the captured text twice, falling back to the raw capture
if either pass fails; return the result only when it validates. -/
def decode_thumbnail_from_script (html imgId : Str) : Option Str :=
  match scriptSearch html imgId with
  | none => none
  | some raw =>
    let unescaped :=
      match pyUnicodeEscape raw with
      | none => raw
      | some u1 =>
        match pyUnicodeEscape u1 with
        | none => raw
        | some u2 => u2
    if is_valid_data_url unescaped then some unescaped else none

/-! ## Year extraction -/

/-- ASCII decimal digit, modelling `\d`. -/
def isDig (c : Char) : Bool := '0' ≤ c && c ≤ '9'

/-- The negative lookbehind `(?<!\d)` / lookahead `(?!\d)`: the
neighbouring character, when there is one, is not a digit. -/
def noDig (oc : Option Char) : Bool :=
  match oc with
  | none => true
  | some c => !isDig c

/-- The year body `(1[5-9]\d{2}|20\d{2})` on four characters. -/
def yearDigits (c1 c2 c3 c4 : Char) : Bool :=
  ((c1 = '1' && '5' ≤ c2 && c2 ≤ '9') || (c1 = '2' && c2 = '0')) &&
    isDig c3 && isDig c4

/-- `(?<!\d)(1[5-9]\d{2}|20\d{2})(?!\d)` matches at the start of `s`,
given the character just before the start (if any). -/
def yearHere (prev : Option Char) (s : Str) : Bool :=
  match s with
  | c1 :: c2 :: c3 :: c4 :: rest =>
    noDig prev && yearDigits c1 c2 c3 c4 && noDig rest.head?
  | _ => false

/-- `re.search` for the year pattern: leftmost match, carrying the
previous character for the lookbehind. -/
def yearSearchAux (prev : Option Char) : Str → Option Str
  | [] => none
  | c :: cs =>
    if yearHere prev (c :: cs) then some ((c :: cs).take 4)
    else yearSearchAux (some c) cs

def yearSearch (s : Str) : Option Str := yearSearchAux none s

/-- The search text of `extract_year_from_node`:
`" ".join([get_text(" ", strip=True), aria-label, img alt])`. -/
def yearText (node : HNode) : Str :=
  getTextSp node ++ " ".toList ++
    ((node.attr "aria-label".toList).getD []) ++ " ".toList ++
    (match findImg node with
     | some img => (img.attr "alt".toList).getD []
     | none => [])

/-- `extract_year_from_node`. -/
def extract_year_from_node (node : HNode) : Option Str :=
  yearSearch (yearText node)

/-! ## URL normalization -/

/-- RFC 3986 scheme characters after the leading letter. -/
def isSchemeCh (c : Char) : Bool :=
  c.isAlpha || isDig c || c = '+' || c = '-' || c = '.'

/-- Split a leading `scheme:` from a URL reference, as `urlparse` does:
a leading letter followed by scheme characters and a colon. -/
def splitScheme (s : Str) : Option (Str × Str) :=
  match s with
  | c :: rest =>
    if c.isAlpha then
      let body := rest.takeWhile isSchemeCh
      match rest.drop body.length with
      | ':' :: tail => some ((c :: body).map lowCh, tail)
      | _ => none
    else none
  | [] => none

/-- Relative-reference resolution against `https://www.google.com`
(empty path, no query or fragment), per `urllib.parse.urljoin`:
network-path references adopt the scheme, absolute paths are appended to
the origin, query/fragment references attach directly, and bare relative
paths are merged onto the root. -/
def resolveAgainstGoogle (ref : Str) : Str :=
  if ref = [] then GOOGLE_ORIGIN
  else if "//".toList.isPrefixOf ref then "https:".toList ++ ref
  else if "/".toList.isPrefixOf ref then GOOGLE_ORIGIN ++ ref
  else if "?".toList.isPrefixOf ref then GOOGLE_ORIGIN ++ ref
  else if "#".toList.isPrefixOf ref then GOOGLE_ORIGIN ++ ref
  else GOOGLE_ORIGIN ++ '/' :: ref

/-- `urljoin(GOOGLE_ORIGIN, href)`: a reference with its own scheme other
than `https` is returned unchanged; otherwise resolve relative to the
origin. -/
def urljoinGoogle (href : Str) : Str :=
  match splitScheme href with
  | some (sch, tail) =>
    if sch = "https".toList then resolveAgainstGoogle tail else href
  | none => resolveAgainstGoogle href

/-- `make_absolute_url`. -/
def make_absolute_url (href : Str) : Str :=
  if "http://".toList.isPrefixOf href || "https://".toList.isPrefixOf href then href
  else urljoinGoogle href

/-! ## Thumbnail resolver and pipeline -/

/-- `find_best_thumbnail`: direct inline data URI, then the
script-embedded reference, then the proximity fallback. -/
def find_best_thumbnail (a img : HNode) (html : Str) : Option Str :=
  let src := pyStrip ((img.attr "src".toList).getD [])
  if is_valid_data_url src then some src
  else
    let imgId := pyStrip ((img.attr "id".toList).getD [])
    let afterScript :=
      if imgId ≠ [] then decode_thumbnail_from_script html imgId else none
    match afterScript with
    | some d => some d
    | none =>
      let title :=
        pyStrip (pyOr (a.attr "aria-label".toList)
          (pyOr (img.attr "alt".toList) (getTextNoSep a)))
      find_closest_data_image html title

/-- The externally visible record: one artwork. -/
structure Artwork where
  name : Str
  extensions : List Str
  link : Str
  image : Option Str
deriving DecidableEq

/-- The result of `parse_html`: the record list plus the diagnostic
lines printed along the way. -/
structure ParseOutput where
  records : List Artwork
  diagnostics : List Str
deriving DecidableEq

/-- `(a.get("aria-label") or img.get("alt") or "").strip()`. -/
def nameOf (a img : HNode) : Str :=
  pyStrip (pyOr (a.attr "aria-label".toList) (pyOr (img.attr "alt".toList) []))

/-- `make_absolute_url(a["href"])`. -/
def linkOf (a : HNode) : Str :=
  make_absolute_url ((a.attr "href".toList).getD [])

/-- `[year] if year else []`. -/
def extList (year : Option Str) : List Str :=
  match year with
  | some y => [y]
  | none => []

/-- The per-anchor body of the `parse_html` loop: `None` when the anchor
is skipped (`continue`), the assembled record otherwise. -/
def entryRecord (html : Str) (a : HNode) : Option Artwork :=
  match findImg a with
  | none => none
  | some img =>
    if nameOf a img = [] then none
    else
      if GOOGLE_ORIGIN.isPrefixOf (linkOf a) then
        some ⟨nameOf a img, extList (extract_year_from_node a), linkOf a,
              find_best_thumbnail a img html⟩
      else none

/-- `parse_html`: locate the container, extract one record per
qualifying anchor, and on a missing container print a diagnostic and
return the empty list.  The function takes the BeautifulSoup tree of the
input (the soup's top-level nodes) together with the raw HTML text. -/
def parse_html (doc : List HNode) (html : Str) : ParseOutput :=
  match locateContainer doc with
  | none => ⟨[], ["No carousel container found in HTML.".toList]⟩
  | some container => ⟨(anchorsWithHref container).filterMap (entryRecord html), []⟩

/-! ## Spec-side predicates -/

/-- The spec's anchored year pattern `^(1[5-9]\d{2}|20\d{2})$`: exactly
four characters forming a year in 1500–2099. -/
def matchesYearPattern (s : Str) : Bool :=
  match s with
  | [c1, c2, c3, c4] => yearDigits c1 c2 c3 c4
  | _ => false

/-- The character the lookbehind inspects when a match is tried at
offset `i` of a string whose character before offset `0` is `prev`. -/
def lookBehind (prev : Option Char) (s : Str) (i : Nat) : Option Char :=
  match i with
  | 0 => prev
  | j + 1 => (s.drop j).head?

/-! ## Concrete documents used by the witnesses -/

/-- A minimal carousel document: one anchor, name and year from the
image alt text, no resolvable thumbnail. -/
def sampleImg : HNode :=
  .elem "img".toList [("alt".toList, "Mona Lisa 1503".toList)] (hf [])

def sampleAnchor : HNode :=
  .elem "a".toList [("href".toList, "/search?q=Mona+Lisa".toList)] (hf [sampleImg])

def sampleDiv : HNode :=
  .elem "div".toList
    [("data-attrid".toList, "kc:/visual_art/visual_artist:works".toList)] (hf [sampleAnchor])

def sampleDoc : List HNode := [sampleDiv]

def sampleRecord : Artwork :=
  ⟨"Mona Lisa 1503".toList, ["1503".toList],
   "https://www.google.com/search?q=Mona+Lisa".toList, none⟩

/-- A document whose first `div` matches only the generic `artworks`
signature while a later `div` matches the `:works` signature. -/
def artworksOnlyDiv : HNode :=
  .elem "div".toList [("data-attrid".toList, "kc:/x/artworks".toList)] (hf [])

def worksDiv : HNode :=
  .elem "div".toList
    [("data-attrid".toList, "kc:/visual_art/visual_artist:works".toList)] (hf [])

def priorityDoc : List HNode := [artworksOnlyDiv, worksDiv]

/-- The end-to-end Starry Night scenario. -/
def starryImage : Str := "data:image/jpeg;base64,".toList ++ List.replicate 600 'A'

def starryImg : HNode :=
  .elem "img".toList
    [("src".toList, starryImage), ("alt".toList, "1889 The Starry Night".toList)] (hf [])

def starryAnchor : HNode :=
  .elem "a".toList
    [("href".toList, "/search?q=The+Starry+Night".toList),
     ("aria-label".toList, "The Starry Night".toList)] (hf [starryImg])

def starryContainer : HNode :=
  .elem "div".toList
    [("data-attrid".toList, "kc:/visual_art/visual_artist:works".toList)] (hf [starryAnchor])

def starryDoc : List HNode := [starryContainer]

/-- A raw-text rendering of the Starry Night document. -/
def starryHtml : Str :=
  "<html><body><div data-attrid=\"kc:/visual_art/visual_artist:works\"><a href=\"/search?q=The+Starry+Night\" aria-label=\"The Starry Night\"><img src=\"".toList ++
    starryImage ++ "\" alt=\"1889 The Starry Night\"/></a></div></body></html>".toList

def starryRecord : Artwork :=
  ⟨"The Starry Night".toList, ["1889".toList],
   "https://www.google.com/search?q=The+Starry+Night".toList, some starryImage⟩

/-- The well-known 1x1 transparent GIF placeholder. -/
def gifPlaceholder : Str :=
  "data:image/gif;base64,R0lGODlhAQABAIAAAAAAAP///yH5BAEAAAAALAAAAAABAAEAAAIBRAA7".toList

/-- Scenario for the image-absent record: placeholder `src`, no `id`,
and a raw document in which the title never occurs. -/
def phImg : HNode := .elem "img".toList [("src".toList, gifPlaceholder)] (hf [])

def phAnchor : HNode :=
  .elem "a".toList
    [("href".toList, "/search?q=Lost+Work".toList),
     ("aria-label".toList, "Lost Work".toList)] (hf [phImg])

def phDiv : HNode :=
  .elem "div".toList
    [("data-attrid".toList, "kc:/visual_art/visual_artist:works".toList)] (hf [phAnchor])

def phDoc : List HNode := [phDiv]

/-- Script-pattern document for the tier-2 witness. -/
def scriptUri : Str := "data:image/png;base64,".toList ++ List.replicate 480 'Q'

def scriptHtml : Str :=
  "var s='".toList ++ scriptUri ++ "';var ii=['im1'];".toList

/-- Proximity documents: `proxUri1`/`proxUri2` are valid data URIs
(length 503 each).  In `proxHtml` the title sits at offset 504, nearer
to the second URI; in `tieHtml` the title sits at offset 600, at equal
distance 600 from both URIs. -/
def proxUri1 : Str := "data:image/jpeg;base64,".toList ++ List.replicate 480 'A'

def proxUri2 : Str := "data:image/png;base64,".toList ++ List.replicate 481 'B'

def proxTitle : Str := "Mona Lisa".toList

def proxHtml : Str :=
  proxUri1 ++ ".".toList ++ proxTitle ++ List.replicate 187 '.' ++ proxUri2

def tieHtml : Str :=
  proxUri1 ++ List.replicate 97 '.' ++ proxTitle ++ List.replicate 591 '.' ++ proxUri2

/-! ## Supporting lemmas -/

/-! ## C2 -/

lemma is_valid_data_url_eq (url : Str) :
    is_valid_data_url url =
      ("data:image/".toList.isPrefixOf url &&
       !("data:image/gif;base64,R0lGODlhAQABA".toList.isPrefixOf url) &&
       decide (500 < url.length)) := by
  unfold is_valid_data_url
  cases h1 : "data:image/".toList.isPrefixOf url <;>
    cases h2 : "data:image/gif;base64,R0lGODlhAQABA".toList.isPrefixOf url <;>
      simp

/-- C2: `is_valid_data_url` accepts exactly the strings that start with
`data:image/`, do not start with the fixed 1x1 transparent GIF base64
prefix, and are strictly longer than 500 characters; in particular any
string of length at most 500 is rejected, and any string with the GIF
placeholder prefix is rejected regardless of length. -/
theorem c2_is_valid_data_url_characterization : ∀ url : Str,
    (is_valid_data_url url = true ↔
      ("data:image/".toList.isPrefixOf url = true ∧
       "data:image/gif;base64,R0lGODlhAQABA".toList.isPrefixOf url = false ∧
       500 < url.length)) ∧
    (url.length ≤ 500 → is_valid_data_url url = false) ∧
    ("data:image/gif;base64,R0lGODlhAQABA".toList.isPrefixOf url = true →
       is_valid_data_url url = false) := by
  intro url
  refine ⟨?_, ?_, ?_⟩
  · rw [is_valid_data_url_eq]
    cases h1 : "data:image/".toList.isPrefixOf url <;>
      cases h2 : "data:image/gif;base64,R0lGODlhAQABA".toList.isPrefixOf url <;>
        simp
  · intro hlen
    rw [is_valid_data_url_eq]
    have hd : decide (500 < url.length) = false := by simp; omega
    rw [hd]
    simp
  · intro hg
    rw [is_valid_data_url_eq, hg]
    simp

theorem c2_witness :
    is_valid_data_url ("data:image/png;base64,AAAA".toList) = false ∧
    is_valid_data_url
      ("data:image/gif;base64,R0lGODlhAQABA".toList ++ List.replicate 600 'B') = false := by
  refine ⟨?_, ?_⟩
  · exact (c2_is_valid_data_url_characterization _).2.1 (by decide)
  · exact (c2_is_valid_data_url_characterization _).2.2 (by decide)

lemma entryRecord_eq_some {html : Str} {a : HNode} {r : Artwork}
    (h : entryRecord html a = some r) :
    ∃ img, findImg a = some img ∧
      r = Artwork.mk (nameOf a img) (extList (extract_year_from_node a)) (linkOf a)
            (find_best_thumbnail a img html) ∧
      nameOf a img ≠ [] ∧ GOOGLE_ORIGIN.isPrefixOf (linkOf a) = true := by
  unfold entryRecord at h
  split at h
  · cases h
  · rename_i img himg
    by_cases hname : nameOf a img = []
    · rw [if_pos hname] at h
      cases h
    · rw [if_neg hname] at h
      by_cases hpre : GOOGLE_ORIGIN.isPrefixOf (linkOf a) = true
      · rw [if_pos hpre] at h
        injection h with h
        exact ⟨img, himg, h.symm, hname, hpre⟩
      · rw [if_neg hpre] at h
        cases h

lemma mem_records {doc : List HNode} {html : Str} {r : Artwork}
    (hr : r ∈ (parse_html doc html).records) :
    ∃ c a, locateContainer doc = some c ∧ a ∈ anchorsWithHref c ∧
      entryRecord html a = some r := by
  unfold parse_html at hr
  cases hc : locateContainer doc with
  | none => rw [hc] at hr; simp at hr
  | some c =>
    rw [hc] at hr
    simp only [List.mem_filterMap] at hr
    obtain ⟨a, ha, hrec⟩ := hr
    exact ⟨c, a, rfl, ha, hrec⟩

/-! ## C1 -/

/-- C1: every record emitted by `parse_html` has a non-empty name and a
link starting with the fixed origin `https://www.google.com`. -/
theorem c1_name_nonempty_link_origin :
    ∀ (doc : List HNode) (html : Str) (r : Artwork),
      r ∈ (parse_html doc html).records →
      r.name ≠ [] ∧ GOOGLE_ORIGIN.isPrefixOf r.link = true := by
  intro doc html r hr
  obtain ⟨c, a, -, -, hrec⟩ := mem_records hr
  obtain ⟨img, -, hre, hname, hpre⟩ := entryRecord_eq_some hrec
  subst hre
  exact ⟨hname, hpre⟩

set_option maxRecDepth 10000 in
theorem c1_witness :
    sampleRecord.name ≠ [] ∧ GOOGLE_ORIGIN.isPrefixOf sampleRecord.link = true :=
  c1_name_nonempty_link_origin sampleDoc [] sampleRecord (by
    rw [show parse_html sampleDoc [] = ⟨[sampleRecord], []⟩ from rfl]
    exact List.mem_singleton.mpr rfl)

/-! ## C4 -/

lemma yearSearchAux_matches (s : Str) : ∀ (prev : Option Char) (y : Str),
    yearSearchAux prev s = some y → matchesYearPattern y = true := by
  induction s with
  | nil => intro prev y h; cases h
  | cons c cs ih =>
    intro prev y h
    unfold yearSearchAux at h
    split at h
    · rename_i hy
      injection h with h
      subst h
      match cs with
      | [] => simp [yearHere] at hy
      | [c2] => simp [yearHere] at hy
      | [c2, c3] => simp [yearHere] at hy
      | c2 :: c3 :: c4 :: rest =>
        simp only [yearHere, Bool.and_eq_true] at hy
        simpa [matchesYearPattern, List.take] using hy.1.2
    · exact ih (some c) y h

lemma lookBehind_shift (prev : Option Char) (c : Char) (cs : Str) (i : Nat) :
    lookBehind prev (c :: cs) (i + 1) = lookBehind (some c) cs i := by
  cases i with
  | zero => simp [lookBehind]
  | succ k => simp [lookBehind, List.drop]

lemma yearSearchAux_leftmost (s : Str) : ∀ (prev : Option Char) (y : Str),
    yearSearchAux prev s = some y →
    ∃ i, yearHere (lookBehind prev s i) (s.drop i) = true ∧
      (∀ j, j < i → yearHere (lookBehind prev s j) (s.drop j) = false) ∧
      y = (s.drop i).take 4 := by
  induction s with
  | nil => intro prev y h; cases h
  | cons c cs ih =>
    intro prev y h
    unfold yearSearchAux at h
    split at h
    · rename_i hy
      injection h with h
      refine ⟨0, by simpa [lookBehind] using hy, ?_, by simp [h.symm]⟩
      intro j hj
      omega
    · rename_i hy
      obtain ⟨i, h1, h2, h3⟩ := ih (some c) y h
      refine ⟨i + 1, ?_, ?_, ?_⟩
      · rw [lookBehind_shift]
        simpa [List.drop] using h1
      · intro j hj
        cases j with
        | zero =>
          simp only [lookBehind, List.drop]
          exact Bool.not_eq_true _ |>.mp hy
        | succ k =>
          rw [lookBehind_shift]
          simpa [List.drop] using h2 k (by omega)
      · simpa [List.drop] using h3

/-- C4: every emitted `extensions` field is empty or a single year
matching the anchored pattern `^(1[5-9]\d{2}|20\d{2})$`, and the year is
taken as the leftmost match of the lookaround year pattern in the
concatenation of the anchor's visible text, its `aria-label` and its
image's alt text. -/
theorem c4_extensions_year_pattern :
    (∀ (doc : List HNode) (html : Str) (r : Artwork),
       r ∈ (parse_html doc html).records →
       r.extensions = [] ∨
         ∃ y, r.extensions = [y] ∧ matchesYearPattern y = true) ∧
    (∀ (node : HNode) (y : Str),
       extract_year_from_node node = some y →
       ∃ i, yearHere (lookBehind none (yearText node) i) ((yearText node).drop i) = true ∧
         (∀ j, j < i →
            yearHere (lookBehind none (yearText node) j) ((yearText node).drop j) = false) ∧
         y = ((yearText node).drop i).take 4) := by
  constructor
  · intro doc html r hr
    obtain ⟨c, a, -, -, hrec⟩ := mem_records hr
    obtain ⟨img, -, hre, -, -⟩ := entryRecord_eq_some hrec
    subst hre
    cases hy : extract_year_from_node a with
    | none => left; simp [extList, hy]
    | some y =>
      right
      refine ⟨y, by simp [extList, hy], ?_⟩
      exact yearSearchAux_matches _ none y hy
  · intro node y hy
    exact yearSearchAux_leftmost _ none y hy

set_option maxRecDepth 10000 in
theorem c4_witness :
    sampleRecord.extensions = [] ∨
      ∃ y, sampleRecord.extensions = [y] ∧ matchesYearPattern y = true :=
  c4_extensions_year_pattern.1 sampleDoc [] sampleRecord (by
    rw [show parse_html sampleDoc [] = ⟨[sampleRecord], []⟩ from rfl]
    exact List.mem_singleton.mpr rfl)

/-! ## C5 -/

lemma firstMatch_first (doc : List HNode) :
    ∀ (sigs : List (HNode → Bool)) (i : Nat) (p : HNode → Bool) (c : HNode),
      sigs[i]? = some p →
      (∀ j q, j < i → sigs[j]? = some q → selectList q doc = none) →
      selectList p doc = some c →
      firstMatch sigs doc = some c := by
  intro sigs
  induction sigs with
  | nil => intro i p c h; simp at h
  | cons s ss ih =>
    intro i p c hget hnone hsel
    cases i with
    | zero =>
      simp only [List.getElem?_cons_zero, Option.some.injEq] at hget
      subst hget
      unfold firstMatch
      rw [hsel]
    | succ k =>
      have hs : selectList s doc = none := hnone 0 s (by omega) (by simp)
      unfold firstMatch
      rw [hs]
      refine ih k p c (by simpa using hget) ?_ hsel
      intro j q hj hq
      exact hnone (j + 1) q (by omega) (by simpa using hq)

/-- C5: the container locator tries its signatures in the fixed priority
order of `containerSignatures`, in which the `:works`-contains signature
(index 0) precedes the generic `artworks`-contains signature (index 2),
and for every document the first signature in that order that matches
determines the returned container. -/
theorem c5_container_priority :
    (containerSignatures[0]? = some sigWorksDiv ∧
     containerSignatures[2]? = some sigArtworksDiv ∧ (0 : Nat) < 2) ∧
    (∀ (doc : List HNode) (i : Nat) (p : HNode → Bool) (c : HNode),
       containerSignatures[i]? = some p →
       (∀ j q, j < i → containerSignatures[j]? = some q → selectList q doc = none) →
       selectList p doc = some c →
       locateContainer doc = some c) := by
  refine ⟨⟨rfl, rfl, by omega⟩, ?_⟩
  intro doc i p c h1 h2 h3
  exact firstMatch_first doc containerSignatures i p c h1 h2 h3

theorem c5_witness :
    selectList sigArtworksDiv priorityDoc = some artworksOnlyDiv ∧
    locateContainer priorityDoc = some worksDiv := by
  refine ⟨rfl, ?_⟩
  exact c5_container_priority.2 priorityDoc 0 sigWorksDiv worksDiv rfl
    (fun j q hj _ => absurd hj (by omega)) rfl

/-! ## C6 -/

/-- C6: when no container signature matches, `parse_html` returns the
empty record list together with the diagnostic line, as a valid result
(the embedding is a total function: no exception is possible). -/
theorem c6_no_container_empty :
    ∀ (doc : List HNode) (html : Str),
      locateContainer doc = none →
      parse_html doc html =
        ⟨[], ["No carousel container found in HTML.".toList]⟩ := by
  intro doc html h
  unfold parse_html
  rw [h]

theorem c6_witness :
    parse_html [HNode.text "plain".toList] [] =
      ⟨[], ["No carousel container found in HTML.".toList]⟩ :=
  c6_no_container_empty [HNode.text "plain".toList] [] rfl

/-! ## C7 -/

set_option maxRecDepth 100000 in
/-- C7: on the minimal Starry Night document, `parse_html` returns
exactly one record with the expected name, year, link and the 623
character data URI. -/
theorem c7_starry_night_scenario :
    parse_html starryDoc starryHtml =
      ⟨[⟨"The Starry Night".toList, ["1889".toList],
         "https://www.google.com/search?q=The+Starry+Night".toList,
         some starryImage⟩], []⟩ ∧
    starryImage = "data:image/jpeg;base64,".toList ++ List.replicate 600 'A' ∧
    starryImage.length = 623 :=
  ⟨rfl, rfl, rfl⟩

/-! ## C8 -/

/-- C8: when the tier-2 script pattern matches, the captured string is
unescaped twice, the raw capture is used if either pass fails, and the
result is returned only if it validates; with no match the resolver
returns `none`.  The embedding is a total function, so a decoding
failure cannot propagate as an exception. -/
theorem c8_decode_double_unescape :
    ∀ html imgId : Str,
      (scriptSearch html imgId = none →
         decode_thumbnail_from_script html imgId = none) ∧
      (∀ raw, scriptSearch html imgId = some raw →
         decode_thumbnail_from_script html imgId =
           (if is_valid_data_url (((pyUnicodeEscape raw).bind pyUnicodeEscape).getD raw) then
              some (((pyUnicodeEscape raw).bind pyUnicodeEscape).getD raw)
            else none)) := by
  intro html imgId
  constructor
  · intro h
    unfold decode_thumbnail_from_script
    rw [h]
  · intro raw h
    unfold decode_thumbnail_from_script
    rw [h]
    cases h1 : pyUnicodeEscape raw with
    | none => simp [h1, Option.bind]
    | some u1 =>
      cases h2 : pyUnicodeEscape u1 with
      | none => simp [h1, h2, Option.bind]
      | some u2 => simp [h1, h2, Option.bind]

set_option maxRecDepth 100000 in
theorem c8_witness :
    scriptSearch scriptHtml "im1".toList = some scriptUri ∧
    decode_thumbnail_from_script scriptHtml "im1".toList = some scriptUri := by
  have hsearch : scriptSearch scriptHtml "im1".toList = some scriptUri := rfl
  refine ⟨hsearch, ?_⟩
  rw [(c8_decode_double_unescape scriptHtml "im1".toList).2 scriptUri hsearch]
  rfl

/-! ## C9 -/

/-- C9: an anchor whose thumbnail fails to resolve at all three tiers is
not dropped — its record is still emitted with an absent image and the
name, extensions and link fields populated. -/
theorem c9_absent_image_record_kept :
    ∀ (doc : List HNode) (html : Str) (c a img : HNode),
      locateContainer doc = some c →
      a ∈ anchorsWithHref c →
      findImg a = some img →
      nameOf a img ≠ [] →
      GOOGLE_ORIGIN.isPrefixOf (linkOf a) = true →
      find_best_thumbnail a img html = none →
      Artwork.mk (nameOf a img) (extList (extract_year_from_node a)) (linkOf a) none
        ∈ (parse_html doc html).records := by
  intro doc html c a img hc ha himg hname hlink hthumb
  unfold parse_html
  rw [hc]
  simp only [List.mem_filterMap]
  refine ⟨a, ha, ?_⟩
  unfold entryRecord
  split
  · rename_i hn
    rw [hn] at himg
    cases himg
  · rename_i img2 himg2
    rw [himg] at himg2
    injection himg2 with he
    subst he
    rw [if_neg hname, if_pos hlink, hthumb]

set_option maxRecDepth 10000 in
theorem c9_witness :
    Artwork.mk (nameOf phAnchor phImg) (extList (extract_year_from_node phAnchor))
        (linkOf phAnchor) none ∈ (parse_html phDoc []).records :=
  c9_absent_image_record_kept phDoc [] phDiv phAnchor phImg rfl
    (by show phAnchor ∈ ([phAnchor] : List HNode); exact List.mem_singleton.mpr rfl)
    rfl (by decide) (by decide) rfl

/-! ## C3 and C10: the proximity fallback -/

lemma minByDist_mem (a : Nat) :
    ∀ (l : List (Nat × Str)) (best : Nat × Str), minByDist a best l ∈ best :: l := by
  intro l
  induction l with
  | nil => intro best; simp [minByDist]
  | cons z zs ih =>
    intro best
    unfold minByDist
    split
    · have := ih z
      rcases List.mem_cons.mp this with h | h
      · rw [h]; simp
      · exact List.mem_cons_of_mem _ (List.mem_cons_of_mem _ h)
    · have := ih best
      rcases List.mem_cons.mp this with h | h
      · rw [h]; simp
      · exact List.mem_cons_of_mem _ (List.mem_cons_of_mem _ h)

lemma minByDist_le (a : Nat) :
    ∀ (l : List (Nat × Str)) (best x : Nat × Str), x ∈ best :: l →
      Nat.dist (minByDist a best l).1 a ≤ Nat.dist x.1 a := by
  intro l
  induction l with
  | nil =>
    intro best x hx
    simp at hx
    subst hx
    simp [minByDist]
  | cons z zs ih =>
    intro best x hx
    unfold minByDist
    split
    · rename_i hlt
      rcases List.mem_cons.mp hx with h | h
      · rw [h]
        calc Nat.dist (minByDist a z zs).1 a ≤ Nat.dist z.1 a :=
              ih z z (List.mem_cons_self _ _)
          _ ≤ Nat.dist best.1 a := le_of_lt hlt
      · exact ih z x h
    · rename_i hge
      rcases List.mem_cons.mp hx with h | h
      · rw [h]
        exact ih best best (List.mem_cons_self _ _)
      · rcases List.mem_cons.mp h with h2 | h2
        · rw [h2]
          calc Nat.dist (minByDist a best zs).1 a ≤ Nat.dist best.1 a :=
                ih best best (List.mem_cons_self _ _)
            _ ≤ Nat.dist z.1 a := by omega
        · exact ih best x (List.mem_cons_of_mem _ h2)

lemma minByDist_tie (a : Nat) :
    ∀ (l : List (Nat × Str)) (best x : Nat × Str),
      (∀ z ∈ l, best.1 < z.1) → l.Pairwise (fun u v => u.1 < v.1) →
      x ∈ best :: l → Nat.dist x.1 a = Nat.dist (minByDist a best l).1 a →
      (minByDist a best l).1 ≤ x.1 := by
  intro l
  induction l with
  | nil =>
    intro best x _ _ hx _
    simp at hx
    subst hx
    simp [minByDist]
  | cons z zs ih =>
    intro best x hall hpw hx htie
    have hbz : best.1 < z.1 := hall z (List.mem_cons_self _ _)
    have hallzs : ∀ w ∈ zs, best.1 < w.1 := fun w hw => hall w (List.mem_cons_of_mem _ hw)
    have hzzs : ∀ w ∈ zs, z.1 < w.1 := (List.pairwise_cons.mp hpw).1
    have hpwzs : zs.Pairwise (fun u v => u.1 < v.1) := (List.pairwise_cons.mp hpw).2
    unfold minByDist at htie ⊢
    split at htie
    · rename_i hlt
      rcases List.mem_cons.mp hx with h | h
      · -- x = best: the tie is impossible, the minimum is strictly below dist best
        rw [h] at htie ⊢
        rw [if_pos hlt]
        have hle : Nat.dist (minByDist a z zs).1 a ≤ Nat.dist z.1 a :=
          minByDist_le a zs z z (List.mem_cons_self _ _)
        omega
      · rw [if_pos hlt]
        exact ih z x hzzs hpwzs h htie
    · rename_i hge
      rw [if_neg hge]
      rcases List.mem_cons.mp hx with h | h
      · rw [h] at htie ⊢
        exact ih best best hallzs hpwzs (List.mem_cons_self _ _) htie
      · rcases List.mem_cons.mp h with h2 | h2
        · -- x = z was dropped; a tie with z forces the result onto best, below z
          rw [h2] at htie ⊢
          have hle1 : Nat.dist (minByDist a best zs).1 a ≤ Nat.dist best.1 a :=
            minByDist_le a zs best best (List.mem_cons_self _ _)
          have hbest : (minByDist a best zs).1 ≤ best.1 :=
            ih best best hallzs hpwzs (List.mem_cons_self _ _) (by omega)
          omega
        · exact ih best x hallzs hpwzs (List.mem_cons_of_mem _ h2) htie

lemma matchDataUrlAt_pos {s m : Str} (h : matchDataUrlAt s = some m) :
    1 ≤ m.length := by
  unfold matchDataUrlAt at h
  split at h
  · cases h
  · split at h
    · cases h
    · split at h
      · cases h
      · simp only [] at h
        split at h
        · cases h
        · injection h with h
          rw [← h]
          simp

lemma dataUrlScan_cons_some {f pos : Nat} {c : Char} {rest m : Str}
    (hm : matchDataUrlAt (c :: rest) = some m) :
    dataUrlScan (f + 1) pos (c :: rest) =
      (pos, m) :: dataUrlScan f (pos + m.length) ((c :: rest).drop m.length) := by
  have heq : dataUrlScan (f + 1) pos (c :: rest) =
      (match matchDataUrlAt (c :: rest) with
       | some m => (pos, m) :: dataUrlScan f (pos + m.length) ((c :: rest).drop m.length)
       | none => dataUrlScan f (pos + 1) rest) := rfl
  rw [heq, hm]

lemma dataUrlScan_cons_none {f pos : Nat} {c : Char} {rest : Str}
    (hm : matchDataUrlAt (c :: rest) = none) :
    dataUrlScan (f + 1) pos (c :: rest) = dataUrlScan f (pos + 1) rest := by
  have heq : dataUrlScan (f + 1) pos (c :: rest) =
      (match matchDataUrlAt (c :: rest) with
       | some m => (pos, m) :: dataUrlScan f (pos + m.length) ((c :: rest).drop m.length)
       | none => dataUrlScan f (pos + 1) rest) := rfl
  rw [heq, hm]

lemma dataUrlScan_lb :
    ∀ (fuel : Nat) (pos : Nat) (s : Str) (x : Nat × Str),
      x ∈ dataUrlScan fuel pos s → pos ≤ x.1 := by
  intro fuel
  induction fuel with
  | zero => intro pos s x hx; simp [dataUrlScan] at hx
  | succ f ih =>
    intro pos s x hx
    match s with
    | [] => simp [dataUrlScan] at hx
    | c :: rest =>
      cases hm : matchDataUrlAt (c :: rest) with
      | some m =>
        rw [dataUrlScan_cons_some hm] at hx
        rcases List.mem_cons.mp hx with h | h
        · rw [h]
        · have := ih (pos + m.length) _ x h
          omega
      | none =>
        rw [dataUrlScan_cons_none hm] at hx
        have := ih (pos + 1) rest x hx
        omega

lemma dataUrlScan_pairwise :
    ∀ (fuel : Nat) (pos : Nat) (s : Str),
      (dataUrlScan fuel pos s).Pairwise (fun u v => u.1 < v.1) := by
  intro fuel
  induction fuel with
  | zero => intro pos s; simp [dataUrlScan]
  | succ f ih =>
    intro pos s
    match s with
    | [] => simp [dataUrlScan]
    | c :: rest =>
      cases hm : matchDataUrlAt (c :: rest) with
      | some m =>
        rw [dataUrlScan_cons_some hm]
        refine List.pairwise_cons.mpr ⟨?_, ih _ _⟩
        intro x hx
        have hlb := dataUrlScan_lb f (pos + m.length) _ x hx
        have hpos := matchDataUrlAt_pos hm
        omega
      | none =>
        rw [dataUrlScan_cons_none hm]
        exact ih (pos + 1) rest

lemma validDataUrls_pairwise (html : Str) :
    (validDataUrls html).Pairwise (fun u v => u.1 < v.1) := by
  unfold validDataUrls dataUrlMatches
  exact (dataUrlScan_pairwise _ 0 html).sublist (List.filter_sublist _)

/-- C3: the proximity fallback returns the valid data-URI occurrence
whose start offset is closest to the first case-insensitive occurrence
of the (non-empty) title, and returns `none` when the title does not
occur in the document or no valid data-URI exists anywhere in it. -/
theorem c3_closest_data_image :
    ∀ html title : Str,
      (title ≠ [] → titlePositions html title = [] →
         find_closest_data_image html title = none) ∧
      (title ≠ [] → validDataUrls html = [] →
         find_closest_data_image html title = none) ∧
      (∀ (anchorPos : Nat) (rest : List Nat) (d : Nat × Str) (ds : List (Nat × Str)),
         title ≠ [] →
         titlePositions html title = anchorPos :: rest →
         validDataUrls html = d :: ds →
         find_closest_data_image html title = some (minByDist anchorPos d ds).2 ∧
         minByDist anchorPos d ds ∈ d :: ds ∧
         (∀ q ∈ d :: ds,
            Nat.dist (minByDist anchorPos d ds).1 anchorPos ≤ Nat.dist q.1 anchorPos)) := by
  intro html title
  refine ⟨?_, ?_, ?_⟩
  · intro hne h
    unfold find_closest_data_image
    rw [if_neg hne, h]
  · intro hne h
    unfold find_closest_data_image
    rw [if_neg hne, h]
    cases titlePositions html title <;> rfl
  · intro anchorPos rest d ds hne h1 h2
    refine ⟨?_, minByDist_mem anchorPos ds d, ?_⟩
    · unfold find_closest_data_image
      rw [if_neg hne, h1, h2]
    · intro q hq
      exact minByDist_le anchorPos ds d q hq

set_option maxRecDepth 100000 in
theorem c3_witness :
    titlePositions proxHtml proxTitle = [504] ∧
    validDataUrls proxHtml = [(0, proxUri1), (700, proxUri2)] ∧
    find_closest_data_image proxHtml proxTitle = some proxUri2 ∧
    Nat.dist (minByDist 504 (0, proxUri1) [(700, proxUri2)]).1 504 ≤ Nat.dist 0 504 := by
  have h1 : titlePositions proxHtml proxTitle = [504] := by decide
  have h2 : validDataUrls proxHtml = [(0, proxUri1), (700, proxUri2)] := by decide
  have h := (c3_closest_data_image proxHtml proxTitle).2.2 504 [] (0, proxUri1)
    [(700, proxUri2)] (by decide) h1 h2
  refine ⟨h1, h2, ?_, ?_⟩
  · rw [h.1]
    rfl
  · exact h.2.2 (0, proxUri1) (by simp)

/-- C10: when several valid data-URI occurrences are at equal distance
from the first title occurrence, the proximity fallback returns the one
with the smallest start offset. -/
theorem c10_tie_smallest_offset :
    ∀ (html title : Str) (anchorPos : Nat) (rest : List Nat)
      (d : Nat × Str) (ds : List (Nat × Str)),
      title ≠ [] →
      titlePositions html title = anchorPos :: rest →
      validDataUrls html = d :: ds →
      find_closest_data_image html title = some (minByDist anchorPos d ds).2 ∧
      (∀ q ∈ d :: ds,
         Nat.dist q.1 anchorPos = Nat.dist (minByDist anchorPos d ds).1 anchorPos →
         (minByDist anchorPos d ds).1 ≤ q.1) := by
  intro html title anchorPos rest d ds hne h1 h2
  constructor
  · unfold find_closest_data_image
    rw [if_neg hne, h1, h2]
  · intro q hq htie
    have hpw : (d :: ds).Pairwise (fun u v => u.1 < v.1) := by
      rw [← h2]; exact validDataUrls_pairwise html
    exact minByDist_tie anchorPos ds d q (List.pairwise_cons.mp hpw).1
      (List.pairwise_cons.mp hpw).2 hq htie

set_option maxRecDepth 100000 in
theorem c10_witness :
    validDataUrls tieHtml = [(0, proxUri1), (1200, proxUri2)] ∧
    Nat.dist 0 600 = Nat.dist 1200 600 ∧
    find_closest_data_image tieHtml proxTitle = some proxUri1 ∧
    (minByDist 600 (0, proxUri1) [(1200, proxUri2)]).1 ≤ 1200 := by
  have h2 : validDataUrls tieHtml = [(0, proxUri1), (1200, proxUri2)] := by decide
  have h := c10_tie_smallest_offset tieHtml proxTitle 600 [] (0, proxUri1)
    [(1200, proxUri2)] (by decide) (by decide) h2
  refine ⟨h2, by decide, ?_, ?_⟩
  · rw [h.1]
    rfl
  · exact h.2 (1200, proxUri2) (by simp) (by decide)

end Carousel
